import Mathlib

/-!
Verification of the softphone backend (softphone-app).

The Rust sources are shallowly embedded: strings are `List Char`, machine
integers are `Nat` with explicit `% 2^w` where wrap-around matters, fallible
code returns `Except`/`Option`, and external library calls (audio codecs,
the SDP parser of rustrtc, the SIP stack) appear as explicit parameters or
as small structures carrying exactly the data the embedded code inspects.
-/

set_option maxRecDepth 100000

namespace Softphone

/-- Strings of the embedded programs: Rust `&str` as a list of characters. -/
abbrev Str := List Char

/-- `char::is_whitespace` restricted to the ASCII whitespace that SDP and SIP
text can contain. -/
def isWS (c : Char) : Bool :=
  c = ' ' || c = '\t' || c = '\n' || c = '\r'

/-- Split a list at every character satisfying `p`, keeping empty pieces
(Rust `str::split`). -/
def splitOnPred (p : Char → Bool) : Str → List Str
  | [] => [[]]
  | x :: xs =>
    if p x then [] :: splitOnPred p xs
    else match splitOnPred p xs with
      | [] => [[x]]
      | q :: qs => (x :: q) :: qs

/-- Split a list at every occurrence of the separator character, keeping empty
pieces (Rust `str::split(c)`). -/
def splitOnChar (c : Char) : Str → List Str :=
  splitOnPred (· = c)

/-- Drop one trailing `'\r'` (the way Rust `str::lines` treats `\r\n`). -/
def dropTrailingCR (s : Str) : Str :=
  match s.reverse with
  | '\r' :: rest => rest.reverse
  | _ => s

/-- Rust `str::lines`: split at `'\n'`, drop the empty piece produced by a
final terminator, and strip one `'\r'` from the end of each line. -/
def rustLines (s : Str) : List Str :=
  let ps := splitOnChar '\n' s
  let ps := if ps.getLast? = some [] then ps.dropLast else ps
  ps.map dropTrailingCR

/-- Rust `str::trim` (ASCII whitespace). -/
def rustTrim (s : Str) : Str :=
  ((s.dropWhile isWS).reverse.dropWhile isWS).reverse

/-- Rust `str::starts_with` on embedded strings. -/
def startsWith (s p : Str) : Bool :=
  p.isPrefixOf s

/-- Rust `str::strip_prefix`, total variant used after a `starts_with` check:
drop the first `p.length` characters. -/
def dropPref (p s : Str) : Str :=
  s.drop p.length

/-- Rust `str::split_whitespace`: split at whitespace, discarding empty
pieces. -/
def splitWhitespace (s : Str) : List Str :=
  (splitOnPred isWS s).filter (· ≠ [])

/-- Rust `str::splitn(2, ' ')`: split at the first space only. -/
def splitnTwoSpace (s : Str) : List Str :=
  match s.span (· ≠ ' ') with
  | (before, []) => [before]
  | (before, _ :: after) => [before, after]

/-- Rust `str::to_uppercase` (ASCII). -/
def toUpperStr (s : Str) : Str :=
  s.map Char.toUpper

/-- Rust `str::contains(pat)`: some contiguous run of `s` equals `pat`. -/
def containsSubstr (s pat : Str) : Bool :=
  s.tails.any (fun t => pat.isPrefixOf t)

/-- Rust `u8::from_str` / `u32::from_str`: optional leading `'+'`, then one or
more decimal digits whose value fits the type (otherwise `None`). -/
def rustParseNat (bound : Nat) (s : Str) : Option Nat :=
  let t := match s with
    | '+' :: rest => rest
    | _ => s
  if t = [] then none
  else if t.all Char.isDigit then
    let v := t.foldl (fun a c => a * 10 + (c.toNat - 48)) 0
    if v ≤ bound then some v else none
  else none

/-- Decimal rendering of a `Nat` (for `format!("{}", port)`). -/
def natToStr (n : Nat) : Str :=
  (Nat.repr n).toList

/-- Join pieces with a separator (Rust `join`). -/
def joinWith (sep : Str) : List Str → Str
  | [] => []
  | [x] => x
  | x :: xs => x ++ sep ++ joinWith sep xs

/-! ## webrtc/codec.rs -/

/-- `audio_codec::CodecType` as re-exported by `webrtc/codec.rs`. -/
inductive CodecType where
  | PCMU | PCMA | G722 | G729 | Opus | TelephoneEvent
  deriving DecidableEq, Repr

/-- `CodecTypeExt::from_payload_type`. -/
def from_payload_type (pt : Nat) : Option CodecType :=
  match pt with
  | 0 => some .PCMU
  | 8 => some .PCMA
  | 9 => some .G722
  | 18 => some .G729
  | 111 => some .Opus
  | _ => none

/-- `CodecTypeExt::default_clock_rate`. -/
def default_clock_rate : CodecType → Nat
  | .PCMU | .PCMA => 8000
  | .G722 => 16000
  | .G729 => 8000
  | .Opus => 48000
  | .TelephoneEvent => 8000

/-- `NegotiatedCodec` from `webrtc/codec.rs`. -/
structure NegotiatedCodec where
  codec : CodecType
  payload_type : Nat
  clock_rate : Nat
  ptime_ms : Nat
  deriving DecidableEq, Repr

/-- `NegotiatedCodec::frame_samples`: `clock_rate * ptime_ms / 1000`. -/
def NegotiatedCodec.frame_samples (c : NegotiatedCodec) : Nat :=
  c.clock_rate * c.ptime_ms / 1000

/-- `impl Default for NegotiatedCodec`. -/
def NegotiatedCodec.default : NegotiatedCodec :=
  { codec := .PCMU, payload_type := 0, clock_rate := 8000, ptime_ms := 20 }

/-- Codec-name lookup of the `a=rtpmap` branch of `parse_negotiated_codec`. -/
def codecFromName (name : Str) : Option CodecType :=
  if name = "PCMU".toList then some .PCMU
  else if name = "PCMA".toList then some .PCMA
  else if name = "G722".toList then some .G722
  else if name = "G729".toList then some .G729
  else if name = "OPUS".toList then some .Opus
  else none

/-- Loop state of `parse_negotiated_codec`: the partial result, the
`in_audio_section` flag and the `media_pt` from the last `m=audio` line. -/
structure ParseState where
  res : NegotiatedCodec
  in_audio : Bool
  media_pt : Option Nat
  deriving DecidableEq, Repr

/-- The `m=audio` / `m=` section tracking at the top of the line loop of
`parse_negotiated_codec` (`line` is already trimmed). -/
def parse_media_line (st : ParseState) (line : Str) : ParseState :=
  if startsWith line ("m=audio".toList) then
    let parts := splitWhitespace line
    -- `parts.len() >= 4` and `parts[3].parse::<u8>()` in the source
    let mpt := match parts.get? 3 with
      | some fmt =>
        match rustParseNat 255 fmt with
        | some pt => some pt
        | none => st.media_pt
      | none => st.media_pt
    { st with in_audio := true, media_pt := mpt }
  else if startsWith line ("m=".toList) then
    { st with in_audio := false }
  else st

/-- The `a=rtpmap:<pt> <name>/<rate>[/...]` branch of
`parse_negotiated_codec` (`line` is already trimmed). -/
def parse_rtpmap_line (st : ParseState) (line : Str) : ParseState :=
  if startsWith line ("a=rtpmap:".toList) then
    let rest := dropPref ("a=rtpmap:".toList) line
    match splitnTwoSpace rest with
    | [ptStr, codecStr] =>
      match rustParseNat 255 ptStr with
      | some pt =>
        let codec_parts := splitOnChar '/' codecStr
        let codec := match codec_parts.head? with
          | some nm => codecFromName (toUpperStr nm)
          | none => none
        match codec, st.media_pt with
        | some c, some mpt =>
          if pt = mpt then
            let res := { st.res with codec := c, payload_type := pt }
            let res := match codec_parts.get? 1 with
              | some rateStr =>
                match rustParseNat (2 ^ 32 - 1) rateStr with
                | some rate => { res with clock_rate := rate }
                | none => res
              | none => res
            { st with res := res }
          else st
        | _, _ => st
      | none => st
    | _ => st
  else st

/-- The `a=ptime:<v>` branch of `parse_negotiated_codec` (`line` is already
trimmed). -/
def parse_ptime_line (st : ParseState) (line : Str) : ParseState :=
  if startsWith line ("a=ptime:".toList) then
    let val := dropPref ("a=ptime:".toList) line
    match rustParseNat (2 ^ 32 - 1) (rustTrim val) with
    | some ptime =>
      if 0 < ptime ∧ ptime ≤ 200 then
        { st with res := { st.res with ptime_ms := ptime } }
      else st
    | none => st
  else st

/-- One iteration of the line loop of `parse_negotiated_codec`: trim, track
the media section, then (inside an audio section only) the `a=rtpmap` and
`a=ptime` attribute branches. -/
def parse_line (st : ParseState) (raw : Str) : ParseState :=
  let line := rustTrim raw
  let st := parse_media_line st line
  if ! st.in_audio then st
  else parse_ptime_line (parse_rtpmap_line st line) line

/-- The post-loop fallback of `parse_negotiated_codec`: when no rtpmap entry
matched the announced payload type, derive the codec statically from the
payload type alone. -/
def parse_finalize (st : ParseState) : NegotiatedCodec :=
  match st.media_pt with
  | some mpt =>
    if st.res.payload_type ≠ mpt then
      match from_payload_type mpt with
      | some c =>
        { st.res with codec := c, payload_type := mpt,
                      clock_rate := default_clock_rate c }
      | none => st.res
    else st.res
  | none => st.res

/-- `parse_negotiated_codec` from `webrtc/codec.rs`: fold the line loop over
the SDP, then apply the payload-type fallback. Total on every string. -/
def parse_negotiated_codec (sdp : Str) : NegotiatedCodec :=
  parse_finalize ((rustLines sdp).foldl parse_line
    { res := NegotiatedCodec.default, in_audio := false, media_pt := none })

/-! ## webrtc/mod.rs — SRTP detection

`detect_srtp_from_sdp` parses the offer with rustrtc's
`SessionDescription::parse` (an external library) and then inspects the
parsed media sections.  The parsed form is embedded structurally: each media
section carries its SDES crypto attributes, its generic attribute list, and
its protocol field; a failed parse is `none`. -/

/-- A parsed SDP media section, as inspected by `detect_srtp_from_sdp`. -/
structure MediaSection where
  crypto_attrs : List Str
  attributes : List (Str × Option Str)
  protocol : Str

/-- A parsed SDP session description (rustrtc `SessionDescription`). -/
structure SessionDescription where
  media_sections : List MediaSection

/-- One media section declares SRTP: SDES crypto attributes present, or a
`fingerprint` attribute, or a protocol containing `SAVP`. -/
def sectionDeclaresSrtp (s : MediaSection) : Bool :=
  ! s.crypto_attrs.isEmpty
    || s.attributes.any (fun a => a.1 = "fingerprint".toList)
    || containsSubstr s.protocol ("SAVP".toList)

/-- `detect_srtp_from_sdp` from `webrtc/mod.rs`, over the parsed offer
(`none` = the library failed to parse, code assumes plain RTP). -/
def detect_srtp_from_sdp (parsed : Option SessionDescription) : Bool :=
  match parsed with
  | none => false
  | some desc => desc.media_sections.any sectionDeclaresSrtp

/-- rustrtc `TransportMode`. -/
inductive TransportMode where
  | Rtp | Srtp
  deriving DecidableEq, Repr

/-- The transport-mode choice of `WebRtcSession::new_inbound`: SRTP iff the
offer is detected to declare SRTP. -/
def new_inbound_transport_mode (parsed : Option SessionDescription) : TransportMode :=
  if detect_srtp_from_sdp parsed then .Srtp else .Rtp

/-- The spec's own wording of "the offer declares SRTP": some media section
carries a crypto attribute, or a fingerprint attribute, or a protocol
containing `SAVP`.  Stated independently of the code path, for comparison
with `detect_srtp_from_sdp`. -/
def declares_srtp_spec (desc : SessionDescription) : Prop :=
  ∃ s ∈ desc.media_sections,
    s.crypto_attrs ≠ [] ∨
    (∃ a ∈ s.attributes, a.1 = "fingerprint".toList) ∨
    containsSubstr s.protocol ("SAVP".toList) = true

/-! ## webrtc/mod.rs — DTMF -/

/-- `build_dtmf_payload`: the 4-byte RFC 4733 telephone-event payload.
Byte 1 packs the End bit (bit 7) with the 6-bit volume. -/
def build_dtmf_payload (event endBit volume duration : Nat) : List Nat :=
  [event,
   (endBit <<< 7) ||| (volume &&& 0x3F),
   duration / 2 ^ 8,
   duration % 2 ^ 8]

/-- The digit-to-event-code table of `WebRtcSession::send_dtmf` (the source
lists the ten decimal-digit arms one by one, each mapping `'k'` to `k`;
they are folded here into one range test with the same value). -/
def dtmfEventCode (digit : Char) : Option Nat :=
  match digit with
  | '*' => some 10
  | '#' => some 11
  | 'A' | 'a' => some 12
  | 'B' | 'b' => some 13
  | 'C' | 'c' => some 14
  | 'D' | 'd' => some 15
  | d => if '0' ≤ d ∧ d ≤ '9' then some (d.toNat - '0'.toNat) else none

/-- One RFC 4733 packet as handed to `audio_bridge.send_dtmf_packet`. -/
structure DtmfPacket where
  payload : List Nat
  pt : Nat
  timestamp : Nat
  deriving DecidableEq, Repr

/-- `WebRtcSession::send_dtmf`: given the negotiated telephone-event payload
type and the current value of the `dtmf_timestamp` counter (a `u32`),
produce the 8 packets and the advanced counter.  `fetch_add` returns the old
value as the event's base timestamp and leaves the counter at
`old + 160 * 8` with `u32` wrap-around. -/
def send_dtmf (digit : Char) (telephone_event_pt : Nat) (dtmf_timestamp : Nat) :
    Except Str (List DtmfPacket × Nat) :=
  match dtmfEventCode digit with
  | none => .error ("Invalid DTMF digit: ".toList ++ [digit])
  | some event_code =>
    let packet_duration := 160
    let total_packets := 8
    let volume := 10
    let base_ts := dtmf_timestamp
    let packets := (List.range total_packets).map (fun i =>
      let duration := packet_duration * (i + 1)
      let end_bit := if i ≥ total_packets - 3 then 1 else 0
      { payload := build_dtmf_payload event_code end_bit volume duration,
        pt := telephone_event_pt,
        timestamp := base_ts })
    .ok (packets, (dtmf_timestamp + packet_duration * total_packets) % 2 ^ 32)

/-! ## webrtc/mod.rs — SDP answer rewriting for non-ICE peers -/

/-- One iteration of the line loop of `replace_with_public_address`:
`none` means the line is dropped. -/
def replace_line (public_ip : Str) (public_port : Nat) (line : Str) : Option Str :=
  if startsWith line ("c=IN IP4".toList) then
    some ("c=IN IP4 ".toList ++ public_ip)
  else if startsWith line ("o=".toList) then
    match splitWhitespace line with
    | p0 :: p1 :: p2 :: p3 :: p4 :: _ :: _ =>
      some (joinWith (" ".toList) [p0, p1, p2, p3, p4, public_ip])
    | _ => some line
  else if startsWith line ("m=audio".toList) then
    match splitWhitespace line with
    | _ :: _ :: rest@(_ :: _) =>
      some ("m=audio ".toList ++ natToStr public_port ++ (" ".toList)
        ++ joinWith (" ".toList) rest)
    | _ => some line
  else if startsWith line ("a=sendonly".toList) then
    some ("a=sendrecv".toList)
  else if startsWith line ("a=ice-".toList)
      || startsWith line ("a=candidate:".toList)
      || startsWith line ("a=end-of-candidates".toList)
      || startsWith line ("a=rtcp-mux".toList) then
    none
  else
    some line

/-- The rewritten line list of `replace_with_public_address`. -/
def replace_lines (public_ip : Str) (public_port : Nat) (lines : List Str) : List Str :=
  lines.filterMap (replace_line public_ip public_port)

/-- `replace_with_public_address` from `webrtc/mod.rs`. -/
def replace_with_public_address (sdp public_ip : Str) (public_port : Nat) : Str :=
  joinWith ("\r\n".toList) (replace_lines public_ip public_port (rustLines sdp))
    ++ "\r\n".toList

/-- The no-public-address fallback inside `new_inbound` (strip ICE lines and
rewrite `a=sendonly`, keep addresses). -/
def strip_ice_line (line : Str) : Option Str :=
  if startsWith line ("a=ice-".toList)
      || startsWith line ("a=candidate:".toList)
      || startsWith line ("a=end-of-candidates".toList)
      || startsWith line ("a=rtcp-mux".toList) then
    none
  else if startsWith line ("a=sendonly".toList) then
    some ("a=sendrecv".toList)
  else
    some line

/-- `remote_has_ice` in `new_inbound`: the raw offer contains both
`a=ice-ufrag` and `a=ice-pwd`. -/
def remote_has_ice (sdp_offer : Str) : Bool :=
  containsSubstr sdp_offer ("a=ice-ufrag".toList)
    && containsSubstr sdp_offer ("a=ice-pwd".toList)

/-- Step 6 of `WebRtcSession::new_inbound`: build the final SDP answer from
the peer-connection's answer `offer_sdp`, the raw remote offer, and the
server-reflexive candidate (if any was gathered). -/
def build_final_answer (sdp_offer offer_sdp : Str)
    (public_addr : Option (Str × Nat)) : Str :=
  if ! remote_has_ice sdp_offer then
    match public_addr with
    | some (ip, port) => replace_with_public_address offer_sdp ip port
    | none =>
      joinWith ("\r\n".toList) ((rustLines offer_sdp).filterMap strip_ice_line)
        ++ "\r\n".toList
  else offer_sdp

/-! ## webrtc/audio_bridge.rs — capture task

The per-tick body of the capture loop in `setup_capture_stream`.  The OS
device, the rubato resampler and the `audio_codec` encoder are external; the
encoder enters as an explicit function `enc` from i16 samples to bytes, and
the samples that the pop/resample/f32→i16 pipeline would deliver on a tick
enter as the tick's `pcm` input.  Only the frame structure (timestamp,
payload) is at issue in the claims. -/

/-- rustrtc `AudioFrame` as filled in by the capture task (payload bytes as
`Nat`s). -/
structure AudioFrame where
  rtp_timestamp : Nat
  clock_rate : Nat
  data : List Nat
  deriving DecidableEq, Repr

/-- External inputs of one capture tick: the mute flag, the ring-buffer
occupancy, and the PCM samples the resample pipeline would yield. -/
structure CaptureTick where
  muted : Bool
  available : Nat
  pcm : List Int

/-- One iteration of the capture loop: emit a frame (silence on mute or
underrun, encoded audio otherwise) and advance `rtp_timestamp` by
`frame_samples` with `u32` wrap-around. -/
def capture_step (frame_samples codec_sample_rate device_frame_samples : Nat)
    (enc : List Int → List Nat) (ts : Nat) (tick : CaptureTick) :
    AudioFrame × Nat :=
  if tick.muted then
    ({ rtp_timestamp := ts, clock_rate := codec_sample_rate,
       data := List.replicate frame_samples 0 },
     (ts + frame_samples) % 2 ^ 32)
  else if tick.available < device_frame_samples then
    ({ rtp_timestamp := ts, clock_rate := codec_sample_rate,
       data := List.replicate frame_samples 0 },
     (ts + frame_samples) % 2 ^ 32)
  else
    ({ rtp_timestamp := ts, clock_rate := codec_sample_rate,
       data := enc tick.pcm },
     (ts + frame_samples) % 2 ^ 32)

/-- The frames emitted by the capture task from timestamp `ts` over a list of
ticks (`rtp_timestamp` starts at 0 in the task; sends are assumed to
succeed — a failed send ends the task without emitting). -/
def capture_frames (frame_samples codec_sample_rate device_frame_samples : Nat)
    (enc : List Int → List Nat) (ts : Nat) :
    List CaptureTick → List AudioFrame
  | [] => []
  | t :: ts' =>
    let (frame, ts2) :=
      capture_step frame_samples codec_sample_rate device_frame_samples enc ts t
    frame :: capture_frames frame_samples codec_sample_rate device_frame_samples
      enc ts2 ts'

/-- The capture task of one call: timestamps start at `0`. -/
def capture_task (negotiated : NegotiatedCodec) (device_frame_samples : Nat)
    (enc : List Int → List Nat) (ticks : List CaptureTick) : List AudioFrame :=
  capture_frames negotiated.frame_samples negotiated.clock_rate
    device_frame_samples enc 0 ticks

/-! ## sip/registration.rs -/

/-- Modelled from the spec: rsipstack's `Registration` object, of which the
embedded code only touches the `call_id` field.  Its `register` method (the
missing library code) builds a REGISTER request carrying the stored Call-ID
and the requested expires, and leaves the stored Call-ID unchanged — per the
spec, "Call-ID is generated once at construction (UUID-based) and reused
across refresh". -/
structure Registration where
  call_id : Str
  deriving DecidableEq, Repr

/-- A REGISTER request as far as the claims inspect it. -/
structure RegisterRequest where
  call_id : Str
  expires : Option Nat
  deriving DecidableEq, Repr

/-- Modelled from the spec: `Registration::register` emits a REGISTER with
the stored Call-ID (see `Registration`). -/
def Registration.registerRequest (r : Registration) (expires : Option Nat) :
    RegisterRequest :=
  { call_id := r.call_id, expires := expires }

/-- `Registrant` from `sip/registration.rs`. -/
structure Registrant where
  inner : Registration
  deriving DecidableEq, Repr

/-- `Registrant::new`: a fresh UUID Call-ID is stored exactly once at
construction time (the UUID generator is external; the generated value
enters as `uuid`). -/
def Registrant.new (uuid : Str) : Registrant :=
  { inner := { call_id := uuid } }

/-- `Registrant::register_once`, response handling: the status code and the
server's expires value from the response enter as inputs.  A non-200
response is an error; otherwise the expires is clamped to at least 60 s. -/
def register_once (status : Nat) (server_expires : Nat) : Except Str Nat :=
  if status ≠ 200 then .error ("Failed to register".toList)
  else .ok (max server_expires 60)

/-- The `cap` closure of `Registrant::run_refresh_loop`. -/
def keepaliveCap (max_keepalive_secs : Option Nat) (t : Nat) : Nat :=
  match max_keepalive_secs with
  | some m => min t m
  | none => t

/-- The refresh interval computed by `run_refresh_loop` after a REGISTER
that negotiated `expires`: `cap(expires * 3 / 4)` (integer division). -/
def refresh_time (expires : Nat) (max_keepalive_secs : Option Nat) : Nat :=
  keepaliveCap max_keepalive_secs (expires * 3 / 4)

/-- The REGISTER requests that one `Registrant` emits: refreshes
(`expires := none`) and the final unregister (`expires := some 0`) all go
through its single `inner` registration. -/
def registrant_requests (r : Registrant) (refreshes : Nat) : List RegisterRequest :=
  (List.range refreshes).map (fun _ => r.inner.registerRequest none)
    ++ [r.inner.registerRequest (some 0)]

/-- The registration lifetime as `SipClient::connect` actually wires it
(sip/mod.rs lines 300–328): the initial REGISTER is sent through a bare
rsipstack `Registration::new(endpoint, credential)` whose Call-ID
`uuid_initial` is generated inside the library — the repository never
assigns it — and the refresh task is then spawned with only the endpoint,
server URI, credential and initial expires, never the registration object,
so the periodic refreshes and the final `expires = 0` unregister come from
a second, independently constructed registration object with its own
generated Call-ID `uuid_refresh`.  The `Registrant` manager of
`sip/registration.rs`, which pins one UUID at construction, is never
constructed on this path. -/
def connect_registration_requests (uuid_initial uuid_refresh : Str)
    (refreshes : Nat) : List RegisterRequest :=
  ({ call_id := uuid_initial } : Registration).registerRequest none
    :: registrant_requests { inner := { call_id := uuid_refresh } } refreshes

/-! ## sip/make_call.rs -/

/-- rsipstack errors as far as `make_call` inspects them: only the
`Error::Error(String)` variant carries a message the retry check reads. -/
inductive SipError where
  | message (msg : Str)
  | other
  deriving DecidableEq, Repr

/-- The 488 retry check in `make_call`: an `Error::Error` whose message
contains `"488"` or `"NotAcceptableHere"`. -/
def isSrtpRejection : Except SipError α → Bool
  | .error (.message msg) =>
    containsSubstr msg ("488".toList) || containsSubstr msg ("NotAcceptableHere".toList)
  | _ => false

/-- The rejection error built by `try_call_with_mode` when the INVITE
response status is not 200 OK (`statusDisplay` is the `Display` rendering of
the status code). -/
def call_rejected_error (statusDisplay : Str) : SipError :=
  .message ("Call rejected: ".toList ++ statusDisplay)

/-- The response check of `try_call_with_mode`: a non-OK final response
closes the session and surfaces `Call rejected: <status>`. -/
def try_call_response_check (statusIsOK : Bool) (statusDisplay : Str) :
    Except SipError Unit :=
  if statusIsOK then .ok () else .error (call_rejected_error statusDisplay)

/-- `make_call` from `sip/make_call.rs`.  One attempt of
`try_call_with_mode` is abstracted as `attempt prefer_srtp call_id`
(its network interaction is external).  The first attempt always prefers
SRTP; on an error matching the 488 pattern the call is retried exactly once
with plain RTP and the freshly generated UUID `fresh_call_id`. -/
def make_call (attempt : Bool → Str → Except SipError α)
    (call_id fresh_call_id : Str) : Except SipError α :=
  let result := attempt true call_id
  if isSrtpRejection result then attempt false fresh_call_id
  else result

/-- The attempts `make_call` performs, in order, as
`(prefer_srtp, call_id)` pairs. -/
def make_call_attempts (attempt : Bool → Str → Except SipError α)
    (call_id fresh_call_id : Str) : List (Bool × Str) :=
  if isSrtpRejection (attempt true call_id) then
    [(true, call_id), (false, fresh_call_id)]
  else
    [(true, call_id)]

/-! ## sip/coming_request.rs -/

/-- SIP methods, as matched by `process_incoming_request`. -/
inductive Method where
  | Invite | Ack | Bye | Cancel | Options | Register | Info
  deriving DecidableEq, Repr

/-- What the incoming-request loop does with one request. -/
inductive RequestAction where
  /-- A matching dialog exists: hand the transaction to `dialog.handle`. -/
  | forwardToDialog
  /-- Direct reply with this status code. -/
  | reply (status : Nat)
  /-- INVITE retransmission for an already-pending call: ignored. -/
  | ignoreRetransmission
  /-- Fresh INVITE admitted: 180 Ringing sent, pending call stored,
      `incoming-call` event emitted. -/
  | storePendingAndRing
  /-- Out-of-dialog ACK: server-invite dialog created on the fly and the
      transaction handed to `dialog.handle` (no direct reply). -/
  | ackToNewServerDialog
  deriving DecidableEq, Repr

/-- One iteration of `process_incoming_request`, as a routing decision.
External outcomes enter as booleans: whether the To header has a tag,
whether `match_dialog` finds a dialog, whether the Call-ID is already in
`pending_incoming`, whether `get_or_create_server_invite` succeeds, and
whether sending 180 Ringing succeeds. -/
def process_incoming_request (hasToTag dialogMatched : Bool) (method : Method)
    (alreadyPending createDialogOk ringingOk : Bool) : RequestAction :=
  if hasToTag then
    if dialogMatched then .forwardToDialog
    else .reply 481
  else
    match method with
    | .Invite =>
      if alreadyPending then .ignoreRetransmission
      else if ! createDialogOk then .reply 481
      else if ! ringingOk then .reply 500
      else .storePendingAndRing
    | .Ack =>
      if createDialogOk then .ackToNewServerDialog
      else .reply 481
    | _ => .reply 200

/-! # Theorems -/

/-! ## Observables of an RFC 4733 payload -/

/-- The duration field of a telephone-event payload (bytes 2 and 3,
big-endian). -/
def dtmfDuration (p : DtmfPacket) : Nat :=
  p.payload.getD 2 0 * 2 ^ 8 + p.payload.getD 3 0

/-- The End bit of a telephone-event payload (bit 7 of byte 1). -/
def dtmfEndBit (p : DtmfPacket) : Nat :=
  p.payload.getD 1 0 / 2 ^ 7

/-- The volume field of a telephone-event payload (low 6 bits of byte 1). -/
def dtmfVolume (p : DtmfPacket) : Nat :=
  p.payload.getD 1 0 % 2 ^ 6

/-- C1.  `send_dtmf` on a valid digit emits exactly 8 telephone-event
packets; all 8 carry the event's base RTP timestamp (the counter value at
the call); the duration of packet `k` is `160 * (k + 1)`; the End bit is set
exactly on packets 5, 6, 7; the volume is 10; and the counter advances by
exactly `1280 = 160 * 8` (mod `2^32`), so the next event starts at the
previous base plus 1280. -/
theorem send_dtmf_rfc4733 (digit : Char) (code pt ts : Nat)
    (hd : dtmfEventCode digit = some code) :
    ∃ pkts ts2, send_dtmf digit pt ts = .ok (pkts, ts2) ∧
      pkts.length = 8 ∧
      ts2 = (ts + 1280) % 2 ^ 32 ∧
      ∀ k (hk : k < pkts.length),
        (pkts.get ⟨k, hk⟩).timestamp = ts ∧
        (pkts.get ⟨k, hk⟩).pt = pt ∧
        dtmfDuration (pkts.get ⟨k, hk⟩) = 160 * (k + 1) ∧
        dtmfEndBit (pkts.get ⟨k, hk⟩) = (if 5 ≤ k then 1 else 0) ∧
        dtmfVolume (pkts.get ⟨k, hk⟩) = 10 := by
  refine ⟨(List.range 8).map (fun i =>
      { payload := build_dtmf_payload code (if i ≥ 8 - 3 then 1 else 0) 10 (160 * (i + 1)),
        pt := pt, timestamp := ts }), (ts + 160 * 8) % 2 ^ 32, ?_, ?_, ?_, ?_⟩
  · simp only [send_dtmf, hd]
  · simp
  · norm_num
  · intro k hk
    simp only [List.length_map, List.length_range] at hk
    simp only [List.get_eq_getElem, List.getElem_map, List.getElem_range]
    refine ⟨by trivial, by trivial, ?_, ?_, ?_⟩
    · simp only [dtmfDuration, build_dtmf_payload]
      simp only [List.getD, List.get?_eq_getElem?]
      norm_num
      omega
    · simp only [dtmfEndBit, build_dtmf_payload]
      rcases Nat.lt_or_ge k 5 with h5 | h5
      · have h0 : ¬ (k ≥ 8 - 3) := by omega
        have h0' : ¬ (5 ≤ k) := by omega
        simp only [h0, if_neg, ite_false, h0']
        norm_num
        decide
      · have h1 : k ≥ 8 - 3 := by omega
        simp only [h1, if_pos, ite_true, h5]
        norm_num
        decide
    · simp only [dtmfVolume, build_dtmf_payload]
      rcases Nat.lt_or_ge k 5 with h5 | h5
      · have h0 : ¬ (k ≥ 8 - 3) := by omega
        simp only [h0, if_neg, ite_false]
        norm_num
        decide
      · have h1 : k ≥ 8 - 3 := by omega
        simp only [h1, if_pos, ite_true]
        norm_num
        decide

/-- Witness for C1: digit `'5'`, telephone-event PT 101, counter at 0. -/
theorem send_dtmf_rfc4733_witness :
    dtmfEventCode '5' = some 5 ∧
    ∃ pkts ts2, send_dtmf '5' 101 0 = .ok (pkts, ts2) ∧
      pkts.length = 8 ∧
      ts2 = (0 + 1280) % 2 ^ 32 ∧
      ∀ k (hk : k < pkts.length),
        (pkts.get ⟨k, hk⟩).timestamp = 0 ∧
        (pkts.get ⟨k, hk⟩).pt = 101 ∧
        dtmfDuration (pkts.get ⟨k, hk⟩) = 160 * (k + 1) ∧
        dtmfEndBit (pkts.get ⟨k, hk⟩) = (if 5 ≤ k then 1 else 0) ∧
        dtmfVolume (pkts.get ⟨k, hk⟩) = 10 :=
  ⟨by decide, send_dtmf_rfc4733 '5' 5 101 0 (by decide)⟩

/-! ## C2 — capture RTP timestamps -/

theorem capture_step_timestamp (fs cr dfs : Nat) (enc : List Int → List Nat)
    (ts : Nat) (t : CaptureTick) :
    (capture_step fs cr dfs enc ts t).1.rtp_timestamp = ts ∧
    (capture_step fs cr dfs enc ts t).2 = (ts + fs) % 2 ^ 32 := by
  unfold capture_step
  split_ifs <;> exact ⟨rfl, rfl⟩

theorem capture_frames_length (fs cr dfs : Nat) (enc : List Int → List Nat)
    (ts : Nat) (ticks : List CaptureTick) :
    (capture_frames fs cr dfs enc ts ticks).length = ticks.length := by
  induction ticks generalizing ts with
  | nil => rfl
  | cons t rest ih => simp [capture_frames, ih]

theorem capture_frames_head_timestamp (fs cr dfs : Nat)
    (enc : List Int → List Nat) (ts : Nat) (ticks : List CaptureTick)
    (h : 0 < (capture_frames fs cr dfs enc ts ticks).length) :
    ((capture_frames fs cr dfs enc ts ticks).get ⟨0, h⟩).rtp_timestamp = ts := by
  cases ticks with
  | nil => simp [capture_frames] at h
  | cons t rest =>
    simp only [capture_frames, List.get_eq_getElem, List.getElem_cons_zero]
    exact (capture_step_timestamp fs cr dfs enc ts t).1

theorem capture_frames_consecutive (fs cr dfs : Nat)
    (enc : List Int → List Nat) (ticks : List CaptureTick) (ts i : Nat)
    (hi : i + 1 < (capture_frames fs cr dfs enc ts ticks).length) :
    ((capture_frames fs cr dfs enc ts ticks).get ⟨i + 1, hi⟩).rtp_timestamp
      = (((capture_frames fs cr dfs enc ts ticks).get
            ⟨i, Nat.lt_of_succ_lt hi⟩).rtp_timestamp + fs) % 2 ^ 32 := by
  induction ticks generalizing ts i with
  | nil => simp [capture_frames] at hi
  | cons t rest ih =>
    have hstep := capture_step_timestamp fs cr dfs enc ts t
    cases i with
    | zero =>
      simp only [capture_frames, List.get_eq_getElem, List.getElem_cons_succ,
        List.getElem_cons_zero]
      have h0 : 0 < (capture_frames fs cr dfs enc
          (capture_step fs cr dfs enc ts t).2 rest).length := by
        simp only [capture_frames, List.length_cons] at hi
        omega
      have := capture_frames_head_timestamp fs cr dfs enc
        (capture_step fs cr dfs enc ts t).2 rest h0
      simp only [List.get_eq_getElem] at this
      rw [this, hstep.1, hstep.2]
    | succ j =>
      simp only [capture_frames, List.get_eq_getElem, List.getElem_cons_succ]
      have hj : j + 1 < (capture_frames fs cr dfs enc
          (capture_step fs cr dfs enc ts t).2 rest).length := by
        simp only [capture_frames, List.length_cons] at hi
        omega
      have := ih (capture_step fs cr dfs enc ts t).2 j hj
      simpa using this

/-- C2.  For every pair of consecutive frames emitted by the capture task of
one call — microphone audio, mute silence or underrun silence alike — the
later frame's `rtp_timestamp` is the earlier one's plus
`frame_samples = clock_rate * ptime_ms / 1000` modulo `2^32`. -/
theorem capture_rtp_timestamp_monotone (negotiated : NegotiatedCodec)
    (dfs : Nat) (enc : List Int → List Nat) (ticks : List CaptureTick) (i : Nat)
    (hi : i + 1 < (capture_task negotiated dfs enc ticks).length) :
    ((capture_task negotiated dfs enc ticks).get ⟨i + 1, hi⟩).rtp_timestamp
      = (((capture_task negotiated dfs enc ticks).get
            ⟨i, Nat.lt_of_succ_lt hi⟩).rtp_timestamp
          + negotiated.frame_samples) % 2 ^ 32 :=
  capture_frames_consecutive negotiated.frame_samples negotiated.clock_rate dfs
    enc ticks 0 i hi

/-- Witness for C2: the default PCMU negotiation, one audio tick followed by
one muted tick; the second frame's timestamp is the first's plus 160. -/
theorem capture_rtp_timestamp_monotone_witness :
    ((capture_task NegotiatedCodec.default 160 (fun xs => xs.map Int.toNat)
        [⟨false, 200, List.replicate 160 0⟩, ⟨true, 0, []⟩]).get
          ⟨1, by decide⟩).rtp_timestamp
      = (((capture_task NegotiatedCodec.default 160 (fun xs => xs.map Int.toNat)
        [⟨false, 200, List.replicate 160 0⟩, ⟨true, 0, []⟩]).get
          ⟨0, by decide⟩).rtp_timestamp
          + NegotiatedCodec.default.frame_samples) % 2 ^ 32 :=
  capture_rtp_timestamp_monotone NegotiatedCodec.default 160
    (fun xs => xs.map Int.toNat)
    [⟨false, 200, List.replicate 160 0⟩, ⟨true, 0, []⟩] 0 (by decide)

/-! ## C3 — capture frame payload sizes

The silence branch of the capture loop emits `vec![0u8; frame_samples]` —
`frame_samples` zero BYTES — without calling the encoder, so its size equals
the encoder's output size for `frame_samples` samples only for codecs that
encode one byte per sample (PCMU, PCMA).  A G.722-shaped encoder (one byte
per two samples) refutes the claim as stated. -/

/-- An encoder emitting one byte per two input samples, the rate of a
standard G.722 encoder. -/
def halfRateEnc (xs : List Int) : List Nat :=
  List.replicate (xs.length / 2) 0

/-- Counterexample to C3 as stated: with the G.722 negotiation
(16 kHz × 20 ms, `frame_samples = 320`) and a half-rate encoder, the muted
silence frame carries 320 bytes while the encoder produces 160 bytes for 320
samples — the track does receive a frame whose payload size differs from the
encoded size of `frame_samples` samples. -/
theorem capture_payload_size_counterexample :
    ((capture_step
        ({ codec := .G722, payload_type := 9, clock_rate := 16000,
           ptime_ms := 20 } : NegotiatedCodec).frame_samples
        16000 320 halfRateEnc 0 ⟨true, 0, []⟩).1.data).length
      ≠ (halfRateEnc (List.replicate
          ({ codec := .G722, payload_type := 9, clock_rate := 16000,
             ptime_ms := 20 } : NegotiatedCodec).frame_samples 0)).length := by
  decide

/-- C3 (amended).  (1) Every silence frame (mute or underrun) carries
exactly `frame_samples` zero bytes, for EVERY encoder — the silence branch
never calls it; (2) every non-silence frame carries exactly the encoder's
output for the tick's samples; (3) when the encoder emits one byte per
sample — as PCMU and PCMA do — and the resample pipeline delivers
`frame_samples` samples, every frame the track receives has the payload
size the encoder produces for `frame_samples` input samples. -/
theorem capture_payload_size (negotiated : NegotiatedCodec) (dfs : Nat)
    (enc : List Int → List Nat) (ts : Nat) (tick : CaptureTick) :
    ((tick.muted = true ∨ tick.available < dfs) →
      (capture_step negotiated.frame_samples negotiated.clock_rate dfs enc ts
        tick).1.data = List.replicate negotiated.frame_samples 0) ∧
    (tick.muted = false → ¬ tick.available < dfs →
      (capture_step negotiated.frame_samples negotiated.clock_rate dfs enc ts
        tick).1.data = enc tick.pcm) ∧
    (tick.pcm.length = negotiated.frame_samples →
      (∀ xs : List Int, (enc xs).length = xs.length) →
      ((capture_step negotiated.frame_samples negotiated.clock_rate dfs enc ts
          tick).1.data).length
        = (enc (List.replicate negotiated.frame_samples 0)).length) := by
  refine ⟨?_, ?_, ?_⟩
  · intro hsil
    unfold capture_step
    rcases hsil with hm | ha
    · simp [hm]
    · split_ifs <;> rfl
  · intro hm ha
    unfold capture_step
    simp [hm, ha]
  · intro hpcm henc
    unfold capture_step
    split_ifs <;> simp [henc, hpcm]

/-- Witness for C3 (amended): the silence clause at the G.722 negotiation
with the half-rate (one byte per two samples) encoder — the silence frame
is `frame_samples` zero bytes even for this non-byte-per-sample encoder —
and the size-coincidence clause at the PCMU default negotiation with a
byte-per-sample encoder on an underrun tick. -/
theorem capture_payload_size_witness :
    (capture_step
        ({ codec := .G722, payload_type := 9, clock_rate := 16000,
           ptime_ms := 20 } : NegotiatedCodec).frame_samples
        ({ codec := .G722, payload_type := 9, clock_rate := 16000,
           ptime_ms := 20 } : NegotiatedCodec).clock_rate
        320 halfRateEnc 0 ⟨true, 0, []⟩).1.data
      = List.replicate
          ({ codec := .G722, payload_type := 9, clock_rate := 16000,
             ptime_ms := 20 } : NegotiatedCodec).frame_samples 0 ∧
    ((capture_step NegotiatedCodec.default.frame_samples
        NegotiatedCodec.default.clock_rate 160
        (fun xs => xs.map Int.toNat) 0
        ⟨false, 0, List.replicate 160 0⟩).1.data).length
      = ((fun (xs : List Int) => xs.map Int.toNat)
          (List.replicate NegotiatedCodec.default.frame_samples 0)).length :=
  ⟨(capture_payload_size
      { codec := .G722, payload_type := 9, clock_rate := 16000, ptime_ms := 20 }
      320 halfRateEnc 0 ⟨true, 0, []⟩).1 (Or.inl rfl),
   (capture_payload_size NegotiatedCodec.default 160 (fun xs => xs.map Int.toNat)
      0 ⟨false, 0, List.replicate 160 0⟩).2.2 (by decide) (by
        intro xs
        simp)⟩

/-! ## C4 — SRTP auto-selection for inbound sessions -/

/-- C4.  An inbound session is created in SRTP transport mode iff the parsed
offer declares SRTP — some media section carries a crypto attribute, or a
fingerprint attribute, or a protocol containing `SAVP` (so both `RTP/SAVP`
and `…SAVPF`) — and in plain RTP mode otherwise. -/
theorem new_inbound_srtp_auto_select (desc : SessionDescription) :
    (new_inbound_transport_mode (some desc) = .Srtp ↔ declares_srtp_spec desc) ∧
    (new_inbound_transport_mode (some desc) = .Rtp ↔ ¬ declares_srtp_spec desc) := by
  have hiff : detect_srtp_from_sdp (some desc) = true ↔ declares_srtp_spec desc := by
    simp only [detect_srtp_from_sdp, declares_srtp_spec, List.any_eq_true,
      sectionDeclaresSrtp]
    constructor
    · rintro ⟨s, hs, hdecl⟩
      refine ⟨s, hs, ?_⟩
      simp only [Bool.or_eq_true, Bool.not_eq_true', List.isEmpty_eq_false,
        List.any_eq_true] at hdecl
      rcases hdecl with (hc | ⟨a, ha, hk⟩) | hp
      · exact Or.inl hc
      · exact Or.inr (Or.inl ⟨a, ha, by simpa using hk⟩)
      · exact Or.inr (Or.inr hp)
    · rintro ⟨s, hs, hdecl⟩
      refine ⟨s, hs, ?_⟩
      simp only [Bool.or_eq_true, Bool.not_eq_true', List.isEmpty_eq_false,
        List.any_eq_true]
      rcases hdecl with hc | ⟨a, ha, hk⟩ | hp
      · exact Or.inl (Or.inl hc)
      · exact Or.inl (Or.inr ⟨a, ha, by simpa using hk⟩)
      · exact Or.inr hp
  constructor
  · rw [← hiff]
    unfold new_inbound_transport_mode
    constructor
    · intro h
      by_contra hd
      simp [hd] at h
    · intro h
      simp [h]
  · rw [← hiff]
    unfold new_inbound_transport_mode
    constructor
    · intro h
      intro hd
      simp [hd] at h
    · intro h
      simp only [Bool.not_eq_true] at h
      simp [h]

/-! ## C5 — REGISTER result handling and refresh scheduling -/

/-- C5.  `register_once` errors on every non-200 response and on success
returns the server's expires clamped to at least 60 s; the refresh loop
schedules the next refresh at `min(expires * 3 / 4, max_keepalive)` with a
cap and at `expires * 3 / 4` without one, so the interval never exceeds
3/4 of the expires nor the cap. -/
theorem register_refresh_schedule (status e k : Nat) :
    (status ≠ 200 → register_once status e = .error ("Failed to register".toList)) ∧
    register_once 200 e = .ok (max e 60) ∧
    60 ≤ max e 60 ∧
    refresh_time e (some k) = min (e * 3 / 4) k ∧
    refresh_time e none = e * 3 / 4 ∧
    4 * refresh_time e (some k) ≤ 3 * e ∧
    4 * refresh_time e none ≤ 3 * e ∧
    refresh_time e (some k) ≤ k := by
  refine ⟨fun h => by simp [register_once, h], by simp [register_once], ?_, rfl, rfl,
    ?_, ?_, ?_⟩
  · omega
  · simp only [refresh_time, keepaliveCap]
    omega
  · simp only [refresh_time, keepaliveCap]
    omega
  · simp only [refresh_time, keepaliveCap]
    omega

/-- Witness for C5: a 404 response errors; a 200 with expires 3600 registers
for 3600 s and refreshes after `min(2700, 25) = 25` s under a 25 s
keepalive cap. -/
theorem register_refresh_schedule_witness :
    register_once 404 3600 = .error ("Failed to register".toList) ∧
    register_once 200 3600 = .ok 3600 ∧
    refresh_time 3600 (some 25) = 25 ∧
    4 * refresh_time 3600 none ≤ 3 * 3600 := by
  have h := register_refresh_schedule 404 3600 25
  refine ⟨h.1 (by decide), ?_, ?_, ?_⟩
  · have h2 := (register_refresh_schedule 200 3600 25).2.1
    simpa using h2
  · have h3 := h.2.2.2.1
    simpa using h3
  · exact h.2.2.2.2.2.2.1

/-! ## C6 — stable Call-ID across one registration lifetime (code bug)

`Registrant::new` (sip/registration.rs:26-34) does store one UUID Call-ID
for every request of its object — the requests of one `Registrant` all
share it (`registrant_call_id_constant` below).  But `SipClient::connect`
(sip/mod.rs:300-328) never constructs a `Registrant`: the initial REGISTER
uses a bare library `Registration` and the refresh task builds its own, so
the lifetime's requests span two independently generated Call-IDs,
contradicting the claim, the spec, and `Registrant`'s own documentation
("generated at construction time and reused for every subsequent request,
as required by RFC 3261"). -/

/-- All requests of one `Registrant` carry its construction-time UUID. -/
theorem registrant_call_id_constant (uuid : Str) (refreshes : Nat) :
    ∀ req ∈ registrant_requests (Registrant.new uuid) refreshes,
      req.call_id = uuid := by
  intro req hreq
  simp only [registrant_requests, Registrant.new, Registration.registerRequest,
    List.mem_append, List.mem_map, List.mem_range, List.mem_singleton] at hreq
  rcases hreq with ⟨i, _, hi⟩ | h
  · rw [← hi]
  · rw [h]

/-- C6, evaluation at the failing input.  In the lifetime
`SipClient::connect` actually builds — one refresh, the two registration
objects' library-generated Call-IDs being distinct UUIDv4 draws — the
emitted REGISTERs do NOT all share one Call-ID: the initial REGISTER and
the refresh REGISTER differ. -/
theorem connect_call_id_not_stable :
    ∃ r1 ∈ connect_registration_requests ("u1".toList) ("u2".toList) 1,
      ∃ r2 ∈ connect_registration_requests ("u1".toList) ("u2".toList) 1,
        r1.call_id ≠ r2.call_id := by
  decide

/-! ## C8 — SRTP → RTP fallback on 488 -/

/-- C8.  When the first (SRTP-preferred) attempt of `make_call` fails with an
error matching the 488 pattern, exactly one retry is made, with plain RTP
and the freshly generated Call-ID; the retry's outcome — success or a second
failure — is surfaced unchanged (no further retry: at most two attempts are
ever made).  A first attempt that succeeds or fails without the 488 pattern
is surfaced with no retry at all; and a non-OK INVITE response surfaces as a
`Call rejected: <status>` error. -/
theorem make_call_srtp_fallback {α : Type} (attempt : Bool → Str → Except SipError α)
    (call_id fresh_call_id : Str) :
    (isSrtpRejection (attempt true call_id) = true →
        make_call attempt call_id fresh_call_id = attempt false fresh_call_id ∧
        make_call_attempts attempt call_id fresh_call_id
          = [(true, call_id), (false, fresh_call_id)]) ∧
    (isSrtpRejection (attempt true call_id) = false →
        make_call attempt call_id fresh_call_id = attempt true call_id ∧
        make_call_attempts attempt call_id fresh_call_id = [(true, call_id)]) ∧
    (make_call_attempts attempt call_id fresh_call_id).length ≤ 2 ∧
    (∀ statusDisplay, try_call_response_check false statusDisplay
        = .error (call_rejected_error statusDisplay)) := by
  refine ⟨?_, ?_, ?_, fun _ => rfl⟩
  · intro h
    constructor
    · simp [make_call, h]
    · simp [make_call_attempts, h]
  · intro h
    constructor
    · simp [make_call, h]
    · simp [make_call_attempts, h]
  · unfold make_call_attempts
    split_ifs <;> simp

/-- Witness for C8: a concrete attempt function whose SRTP leg is rejected
with `488 Not Acceptable Here` and whose RTP leg succeeds; `make_call`
returns the RTP leg's success after exactly the two expected attempts. -/
theorem make_call_srtp_fallback_witness :
    isSrtpRejection ((fun (srtp : Bool) (_ : Str) =>
        if srtp then (.error (call_rejected_error ("488 Not Acceptable Here".toList))
          : Except SipError Nat)
        else .ok 7) true ("cid".toList)) = true ∧
    make_call (fun (srtp : Bool) (_ : Str) =>
        if srtp then (.error (call_rejected_error ("488 Not Acceptable Here".toList))
          : Except SipError Nat)
        else .ok 7) ("cid".toList) ("fresh".toList) = .ok 7 ∧
    make_call_attempts (fun (srtp : Bool) (_ : Str) =>
        if srtp then (.error (call_rejected_error ("488 Not Acceptable Here".toList))
          : Except SipError Nat)
        else .ok 7) ("cid".toList) ("fresh".toList)
      = [(true, "cid".toList), (false, "fresh".toList)] := by
  have h := (make_call_srtp_fallback (fun (srtp : Bool) (_ : Str) =>
      if srtp then (.error (call_rejected_error ("488 Not Acceptable Here".toList))
        : Except SipError Nat)
      else .ok 7) ("cid".toList) ("fresh".toList)).1 (by decide)
  exact ⟨by decide, h.1, h.2⟩

/-! ## C9 — incoming request routing (corrected)

The claim says an out-of-dialog ACK is "never answered with any response";
the code replies 481 when `get_or_create_server_invite` fails for that ACK
(`coming_request.rs` lines 154–166). -/

/-- Counterexample to C9 as stated: an out-of-dialog ACK for which
server-dialog creation fails is answered — with 481. -/
theorem ack_reply_on_create_fail_counterexample :
    ¬ (∀ (createDialogOk ringingOk : Bool) (s : Nat),
        process_incoming_request false false .Ack false createDialogOk ringingOk
          ≠ .reply s) := by
  intro h
  exact h false false 481 rfl

/-- C9 (amended).  With a To tag and a matching dialog the request is
forwarded to the dialog handler; with a To tag and no match the reply is
481; an out-of-dialog ACK creates a server-invite dialog on the fly and is
handed to it with no direct reply when creation succeeds, and is answered
481 when creation fails; every other out-of-dialog non-INVITE request is
answered 200 OK. -/
theorem incoming_request_routing (hasToTag dialogMatched : Bool) (m : Method)
    (alreadyPending createDialogOk ringingOk : Bool) :
    (hasToTag = true → dialogMatched = true →
        process_incoming_request hasToTag dialogMatched m alreadyPending
          createDialogOk ringingOk = .forwardToDialog) ∧
    (hasToTag = true → dialogMatched = false →
        process_incoming_request hasToTag dialogMatched m alreadyPending
          createDialogOk ringingOk = .reply 481) ∧
    (hasToTag = false → m = .Ack → createDialogOk = true →
        process_incoming_request hasToTag dialogMatched m alreadyPending
          createDialogOk ringingOk = .ackToNewServerDialog) ∧
    (hasToTag = false → m = .Ack → createDialogOk = false →
        process_incoming_request hasToTag dialogMatched m alreadyPending
          createDialogOk ringingOk = .reply 481) ∧
    (hasToTag = false → m ≠ .Invite → m ≠ .Ack →
        process_incoming_request hasToTag dialogMatched m alreadyPending
          createDialogOk ringingOk = .reply 200) := by
  refine ⟨?_, ?_, ?_, ?_, ?_⟩
  · intro h1 h2
    subst h1; subst h2
    simp [process_incoming_request]
  · intro h1 h2
    subst h1; subst h2
    simp [process_incoming_request]
  · intro h1 h2 h3
    subst h1; subst h2; subst h3
    simp [process_incoming_request]
  · intro h1 h2 h3
    subst h1; subst h2; subst h3
    simp [process_incoming_request]
  · intro h1 h2 h3
    subst h1
    cases m <;> simp_all [process_incoming_request]

/-- Witness for C9 (amended): an out-of-dialog BYE is answered 200 OK. -/
theorem incoming_request_routing_witness :
    process_incoming_request false false .Bye false true true = .reply 200 :=
  (incoming_request_routing false false .Bye false true true).2.2.2.2 rfl
    (by decide) (by decide)

/-! ## C7 — answer rewriting for non-ICE peers -/

theorem startsWith_cons_ne (c d : Char) (s p : Str) (h : c ≠ d) :
    startsWith (c :: s) (d :: p) = false := by
  simp only [startsWith, List.isPrefixOf, Bool.and_eq_false_iff, beq_eq_false_iff_ne,
    ne_eq]
  exact Or.inl fun hdc => h hdc.symm

theorem startsWith_cons_elim (s p : Str) (c : Char)
    (h : startsWith s (c :: p) = true) : ∃ s', s = c :: s' := by
  cases s with
  | nil => simp [startsWith, List.isPrefixOf] at h
  | cons x xs =>
    simp only [startsWith, List.isPrefixOf, Bool.and_eq_true, beq_iff_eq] at h
    exact ⟨xs, by rw [h.1]⟩

theorem splitOnPred_ne_nil (p : Char → Bool) (s : Str) : splitOnPred p s ≠ [] := by
  cases s with
  | nil => simp [splitOnPred]
  | cons x xs =>
    unfold splitOnPred
    split_ifs
    · simp
    · rcases h : splitOnPred p xs with _ | ⟨q, qs⟩ <;> simp

theorem splitWhitespace_cons_head (x : Char) (xs : Str) (hx : isWS x = false) :
    ∃ q qs, splitWhitespace (x :: xs) = (x :: q) :: qs := by
  unfold splitWhitespace
  unfold splitOnPred
  rw [hx]
  simp only [Bool.false_eq_true, if_false]
  rcases h : splitOnPred isWS xs with _ | ⟨q, qs⟩
  · exact absurd h (splitOnPred_ne_nil isWS xs)
  · refine ⟨q, qs.filter (· ≠ []), ?_⟩
    simp

/-- A string starting with a character other than `'a'` cannot carry any of
the four stripped `a=…` prefixes. -/
theorem bannedFreeCons (c : Char) (s : Str) (h : c ≠ 'a') :
    startsWith (c :: s) ("a=ice-".toList) = false ∧
    startsWith (c :: s) ("a=candidate:".toList) = false ∧
    startsWith (c :: s) ("a=end-of-candidates".toList) = false ∧
    startsWith (c :: s) ("a=rtcp-mux".toList) = false :=
  ⟨startsWith_cons_ne _ _ _ _ h, startsWith_cons_ne _ _ _ _ h,
   startsWith_cons_ne _ _ _ _ h, startsWith_cons_ne _ _ _ _ h⟩

/-- Every line surviving `replace_line` is free of the four stripped
prefixes. -/
theorem replace_line_no_banned (ip : Str) (port : Nat) (l r : Str)
    (h : replace_line ip port l = some r) :
    startsWith r ("a=ice-".toList) = false ∧
    startsWith r ("a=candidate:".toList) = false ∧
    startsWith r ("a=end-of-candidates".toList) = false ∧
    startsWith r ("a=rtcp-mux".toList) = false := by
  unfold replace_line at h
  split_ifs at h with hc ho hm hs hb
  · -- c= line: the result starts with 'c'
    have hr : r = 'c' :: ("=IN IP4 ".toList ++ ip) := by
      simp only [Option.some.injEq] at h
      rw [← h]
      rfl
    subst hr
    exact bannedFreeCons 'c' _ (by decide)
  · -- o= line: the result starts with 'o'
    obtain ⟨l', hl⟩ := startsWith_cons_elim l _ 'o' ho
    subst hl
    obtain ⟨q, qs0, hsw⟩ := splitWhitespace_cons_head 'o' l' (by decide)
    rw [hsw] at h
    rcases qs0 with _ | ⟨p1, qs1⟩
    · simp only [Option.some.injEq] at h
      rw [← h]
      exact bannedFreeCons 'o' _ (by decide)
    rcases qs1 with _ | ⟨p2, qs2⟩
    · simp only [Option.some.injEq] at h
      rw [← h]
      exact bannedFreeCons 'o' _ (by decide)
    rcases qs2 with _ | ⟨p3, qs3⟩
    · simp only [Option.some.injEq] at h
      rw [← h]
      exact bannedFreeCons 'o' _ (by decide)
    rcases qs3 with _ | ⟨p4, qs4⟩
    · simp only [Option.some.injEq] at h
      rw [← h]
      exact bannedFreeCons 'o' _ (by decide)
    rcases qs4 with _ | ⟨p5, qs5⟩
    · simp only [Option.some.injEq] at h
      rw [← h]
      exact bannedFreeCons 'o' _ (by decide)
    · simp only [Option.some.injEq] at h
      rw [← h]
      simp only [joinWith, List.cons_append]
      exact bannedFreeCons 'o' _ (by decide)
  · -- m=audio line: the result starts with 'm'
    obtain ⟨l', hl⟩ := startsWith_cons_elim l _ 'm' hm
    subst hl
    obtain ⟨q, qs0, hsw⟩ := splitWhitespace_cons_head 'm' l' (by decide)
    rw [hsw] at h
    rcases qs0 with _ | ⟨p1, qs1⟩
    · simp only [Option.some.injEq] at h
      rw [← h]
      exact bannedFreeCons 'm' _ (by decide)
    rcases qs1 with _ | ⟨p2, qs2⟩
    · simp only [Option.some.injEq] at h
      rw [← h]
      exact bannedFreeCons 'm' _ (by decide)
    · simp only [Option.some.injEq] at h
      rw [← h]
      exact bannedFreeCons 'm' _ (by decide)
  · -- a=sendonly → a=sendrecv
    simp only [Option.some.injEq] at h
    rw [← h]
    decide
  · -- untouched line: the branch condition says all four prefixes are absent
    simp only [Option.some.injEq] at h
    rw [← h]
    simp only [Bool.or_eq_true, not_or, Bool.not_eq_true] at hb
    exact ⟨hb.1.1.1, hb.1.1.2, hb.1.2, hb.2⟩

/-- C7.  For an inbound offer lacking ICE attributes, with a
server-reflexive candidate found, the final answer is the rewritten
peer-connection SDP: no surviving line starts with `a=ice-`,
`a=candidate:`, `a=end-of-candidates` or `a=rtcp-mux`; every `c=IN IP4`
line becomes `c=IN IP4 <public_ip>`; the sixth field of the `o=` line
becomes the public IP; the `m=audio` port becomes the public port; every
`a=sendonly` line becomes `a=sendrecv`.  When the offer does carry ICE
attributes the peer-connection SDP is passed through unchanged. -/
theorem inbound_answer_rewrite (sdp_offer offer_sdp ip : Str) (port : Nat)
    (hu : containsSubstr sdp_offer ("a=ice-ufrag".toList) = false)
    (_hw : containsSubstr sdp_offer ("a=ice-pwd".toList) = false) :
    build_final_answer sdp_offer offer_sdp (some (ip, port))
      = replace_with_public_address offer_sdp ip port ∧
    (∀ r ∈ replace_lines ip port (rustLines offer_sdp),
        startsWith r ("a=ice-".toList) = false ∧
        startsWith r ("a=candidate:".toList) = false ∧
        startsWith r ("a=end-of-candidates".toList) = false ∧
        startsWith r ("a=rtcp-mux".toList) = false) ∧
    (∀ l, startsWith l ("c=IN IP4".toList) = true →
        replace_line ip port l = some ("c=IN IP4 ".toList ++ ip)) ∧
    (∀ l p0 p1 p2 p3 p4 p5 rest, startsWith l ("o=".toList) = true →
        splitWhitespace l = p0 :: p1 :: p2 :: p3 :: p4 :: p5 :: rest →
        replace_line ip port l
          = some (joinWith (" ".toList) [p0, p1, p2, p3, p4, ip])) ∧
    (∀ l t0 t1 rest, startsWith l ("m=audio".toList) = true →
        splitWhitespace l = t0 :: t1 :: rest → rest ≠ [] →
        replace_line ip port l
          = some ("m=audio ".toList ++ natToStr port ++ (" ".toList)
              ++ joinWith (" ".toList) rest)) ∧
    (∀ l, startsWith l ("a=sendonly".toList) = true →
        startsWith l ("c=IN IP4".toList) = false →
        replace_line ip port l = some ("a=sendrecv".toList)) ∧
    (∀ sdp_offer2 pa, remote_has_ice sdp_offer2 = true →
        build_final_answer sdp_offer2 offer_sdp pa = offer_sdp) := by
  refine ⟨?_, ?_, ?_, ?_, ?_, ?_, ?_⟩
  · unfold build_final_answer remote_has_ice
    rw [hu]
    simp
  · intro r hr
    rw [replace_lines, List.mem_filterMap] at hr
    obtain ⟨l, _, hl⟩ := hr
    exact replace_line_no_banned ip port l r hl
  · intro l hc
    unfold replace_line
    rw [hc]
    simp
  · intro l p0 p1 p2 p3 p4 p5 rest ho hsw
    obtain ⟨l', hl⟩ := startsWith_cons_elim l _ 'o' ho
    have hc : startsWith l ("c=IN IP4".toList) = false := by
      rw [hl]; exact startsWith_cons_ne _ _ _ _ (by decide)
    unfold replace_line
    rw [hc, ho, hsw]
    simp
  · intro l t0 t1 rest hm hsw hrest
    obtain ⟨l', hl⟩ := startsWith_cons_elim l _ 'm' hm
    have hc : startsWith l ("c=IN IP4".toList) = false := by
      rw [hl]; exact startsWith_cons_ne _ _ _ _ (by decide)
    have ho : startsWith l ("o=".toList) = false := by
      rw [hl]; exact startsWith_cons_ne _ _ _ _ (by decide)
    unfold replace_line
    rw [hc, ho, hm, hsw]
    rcases rest with _ | ⟨r0, rest'⟩
    · exact absurd rfl hrest
    · simp
  · intro l hs hc
    obtain ⟨l', hl⟩ := startsWith_cons_elim l _ 'a' hs
    have ho : startsWith l ("o=".toList) = false := by
      rw [hl]; exact startsWith_cons_ne _ _ _ _ (by decide)
    have hm : startsWith l ("m=audio".toList) = false := by
      rw [hl]; exact startsWith_cons_ne _ _ _ _ (by decide)
    unfold replace_line
    rw [hc, ho, hm, hs]
    simp
  · intro sdp_offer2 pa hice
    unfold build_final_answer
    rw [hice]
    simp

/-- Witness for C7: a concrete ICE-less offer; the answer is built through
`replace_with_public_address` and a concrete `c=` line is rewritten to the
public IP. -/
theorem inbound_answer_rewrite_witness :
    build_final_answer ("v=0\r\nm=audio 4000 RTP/AVP 0\r\n".toList)
        ("c=IN IP4 10.0.0.2\r\n".toList) (some ("1.2.3.4".toList, 5004))
      = replace_with_public_address ("c=IN IP4 10.0.0.2\r\n".toList)
          ("1.2.3.4".toList) 5004 ∧
    replace_line ("1.2.3.4".toList) 5004 ("c=IN IP4 10.0.0.2".toList)
      = some ("c=IN IP4 ".toList ++ "1.2.3.4".toList) := by
  have h := inbound_answer_rewrite ("v=0\r\nm=audio 4000 RTP/AVP 0\r\n".toList)
    ("c=IN IP4 10.0.0.2\r\n".toList) ("1.2.3.4".toList) 5004
    (by decide) (by decide)
  exact ⟨h.1, h.2.2.1 ("c=IN IP4 10.0.0.2".toList) (by decide)⟩

/-! ## C10 — totality and defaults of `parse_negotiated_codec` -/

/-- The payload type announced by a (trimmed) `m=audio` line, exactly as the
`m=audio` branch of the parser extracts it. -/
def audioMediaPt (t : Str) : Option Nat :=
  if startsWith t ("m=audio".toList) then
    match (splitWhitespace t).get? 3 with
    | some fmt => rustParseNat 255 fmt
    | none => none
  else none

/-- A (trimmed) line is an `a=rtpmap:` entry for payload type `mpt` naming a
supported codec — the only kind of line whose processing can assign the
result's codec fields when the announced payload type is `mpt`. -/
def supportedRtpmapWithPt (t : Str) (mpt : Nat) : Bool :=
  startsWith t ("a=rtpmap:".toList) &&
    match splitnTwoSpace (dropPref ("a=rtpmap:".toList) t) with
    | [ptStr, codecStr] =>
      (rustParseNat 255 ptStr == some mpt) &&
      (match (splitOnChar '/' codecStr).head? with
       | some nm => (codecFromName (toUpperStr nm)).isSome
       | none => false)
    | _ => false

/-- The ptime value a (trimmed) `a=ptime:` line carries, before the range
check. -/
def ptimeOverrideValue (t : Str) : Option Nat :=
  if startsWith t ("a=ptime:".toList) then
    rustParseNat (2 ^ 32 - 1) (rustTrim (dropPref ("a=ptime:".toList) t))
  else none

theorem parse_media_line_res (st : ParseState) (line : Str) :
    (parse_media_line st line).res = st.res := by
  unfold parse_media_line
  split_ifs <;> rfl

theorem parse_ptime_line_fields (st : ParseState) (line : Str) :
    (parse_ptime_line st line).media_pt = st.media_pt ∧
    (parse_ptime_line st line).res.codec = st.res.codec ∧
    (parse_ptime_line st line).res.payload_type = st.res.payload_type ∧
    (parse_ptime_line st line).res.clock_rate = st.res.clock_rate := by
  simp only [parse_ptime_line]
  split
  · split
    · split_ifs <;> exact ⟨rfl, rfl, rfl, rfl⟩
    · exact ⟨rfl, rfl, rfl, rfl⟩
  · exact ⟨rfl, rfl, rfl, rfl⟩

theorem parse_rtpmap_line_ptime (st : ParseState) (line : Str) :
    (parse_rtpmap_line st line).res.ptime_ms = st.res.ptime_ms ∧
    (parse_rtpmap_line st line).media_pt = st.media_pt := by
  simp only [parse_rtpmap_line]
  split
  · split
    · split
      · split
        · split_ifs
          · split
            · split <;> exact ⟨rfl, rfl⟩
            · exact ⟨rfl, rfl⟩
          · exact ⟨rfl, rfl⟩
        · exact ⟨rfl, rfl⟩
      · exact ⟨rfl, rfl⟩
    · exact ⟨rfl, rfl⟩
  · exact ⟨rfl, rfl⟩

theorem parse_line_of_not_audio (st : ParseState) (raw : Str)
    (hin : st.in_audio = false)
    (hna : startsWith (rustTrim raw) ("m=audio".toList) = false) :
    parse_line st raw = st := by
  obtain ⟨res, ia, mp⟩ := st
  simp only at hin
  subst hin
  simp only [parse_line, parse_media_line, hna, Bool.false_eq_true, if_false]
  split_ifs <;> simp_all

theorem foldl_parse_line_no_audio (lines : List Str) (st : ParseState)
    (hin : st.in_audio = false)
    (h : ∀ l ∈ lines, startsWith (rustTrim l) ("m=audio".toList) = false) :
    lines.foldl parse_line st = st := by
  induction lines with
  | nil => rfl
  | cons l rest ih =>
    rw [List.foldl_cons,
      parse_line_of_not_audio st l hin (h l (List.mem_cons_self l rest))]
    exact ih fun x hx => h x (List.mem_cons_of_mem l hx)

theorem parse_line_audio (st : ParseState) (raw : Str) (mpt : Nat)
    (hpt : audioMediaPt (rustTrim raw) = some mpt) :
    parse_line st raw = { res := st.res, in_audio := true, media_pt := some mpt } := by
  have haud : startsWith (rustTrim raw) ("m=audio".toList) = true := by
    by_contra hn
    rw [Bool.not_eq_true] at hn
    unfold audioMediaPt at hpt
    rw [hn] at hpt
    simp at hpt
  have hra : startsWith (rustTrim raw) ("a=rtpmap:".toList) = false := by
    obtain ⟨s', hs⟩ := startsWith_cons_elim (rustTrim raw) _ 'm' haud
    rw [hs]
    exact startsWith_cons_ne _ _ _ _ (by decide)
  have hpti : startsWith (rustTrim raw) ("a=ptime:".toList) = false := by
    obtain ⟨s', hs⟩ := startsWith_cons_elim (rustTrim raw) _ 'm' haud
    rw [hs]
    exact startsWith_cons_ne _ _ _ _ (by decide)
  simp only [audioMediaPt, haud, if_true] at hpt
  simp only [parse_line, parse_media_line, haud, if_true]
  rcases hget : (splitWhitespace (rustTrim raw)).get? 3 with _ | fmt
  · rw [hget] at hpt
    simp at hpt
  · rw [hget] at hpt
    simp only at hpt
    simp only [hget, hpt, Bool.not_true, Bool.false_eq_true, if_false]
    simp only [parse_rtpmap_line, parse_ptime_line, hra, hpti,
      Bool.false_eq_true, if_false]

theorem parse_rtpmap_line_preserve (st : ParseState) (line : Str) (mpt : Nat)
    (hmp : st.media_pt = some mpt)
    (hns : supportedRtpmapWithPt line mpt = false) :
    parse_rtpmap_line st line = st := by
  simp only [parse_rtpmap_line]
  split
  case isFalse => rfl
  case isTrue hr =>
    simp only [supportedRtpmapWithPt, hr, Bool.true_and] at hns
    split
    case h_1 ptStr codecStr heq =>
      rw [heq] at hns
      simp only at hns
      split
      case h_1 pt hpt =>
        rw [hpt] at hns
        split
        case h_1 c mpt' hc1 hc2 =>
          rw [hmp] at hc2
          have hmpt' : mpt' = mpt := by
            injection hc2 with h2
            exact h2.symm
          subst hmpt'
          split
          case isTrue hpm =>
            exfalso
            subst hpm
            simp only [beq_self_eq_true, Bool.true_and] at hns
            rcases hhead : (splitOnChar '/' codecStr).head? with _ | nm
            · rcases hsp : splitOnChar '/' codecStr with _ | ⟨a, as⟩
              · exact splitOnPred_ne_nil _ _ hsp
              · rw [hsp] at hhead
                simp at hhead
            · rw [hhead] at hns
              simp only at hns
              have hc : codecFromName (toUpperStr nm) = some c := by
                rw [hhead] at hc1
                exact hc1
              rw [hc] at hns
              simp at hns
          case isFalse => rfl
        case h_2 => rfl
      case h_2 => rfl
    case h_2 => rfl

theorem parse_media_line_not_audio (st : ParseState) (line : Str)
    (hna : startsWith line ("m=audio".toList) = false) :
    (parse_media_line st line).res = st.res ∧
    (parse_media_line st line).media_pt = st.media_pt := by
  simp only [parse_media_line, hna, Bool.false_eq_true, if_false]
  split_ifs <;> exact ⟨rfl, rfl⟩

/-- A line that is not an `m=audio` line and not a supported rtpmap entry
for the announced payload type leaves `media_pt` and the codec fields of the
result unchanged. -/
theorem parse_line_preserve (st : ParseState) (raw : Str) (mpt : Nat)
    (hmp : st.media_pt = some mpt)
    (hna : startsWith (rustTrim raw) ("m=audio".toList) = false)
    (hns : supportedRtpmapWithPt (rustTrim raw) mpt = false) :
    (parse_line st raw).media_pt = some mpt ∧
    (parse_line st raw).res.codec = st.res.codec ∧
    (parse_line st raw).res.payload_type = st.res.payload_type ∧
    (parse_line st raw).res.clock_rate = st.res.clock_rate := by
  obtain ⟨hres, hpt⟩ := parse_media_line_not_audio st (rustTrim raw) hna
  simp only [parse_line]
  split
  case isTrue =>
    rw [hpt, hres, hmp]
    exact ⟨rfl, rfl, rfl, rfl⟩
  case isFalse =>
    have hpre : parse_rtpmap_line (parse_media_line st (rustTrim raw)) (rustTrim raw)
        = parse_media_line st (rustTrim raw) :=
      parse_rtpmap_line_preserve _ _ mpt (by rw [hpt, hmp]) hns
    rw [hpre]
    obtain ⟨h1, h2, h3, h4⟩ := parse_ptime_line_fields
      (parse_media_line st (rustTrim raw)) (rustTrim raw)
    rw [h1, h2, h3, h4, hpt, hres, hmp]
    exact ⟨rfl, rfl, rfl, rfl⟩

theorem foldl_parse_line_preserve (lines : List Str) (st : ParseState) (mpt : Nat)
    (hmp : st.media_pt = some mpt)
    (h : ∀ l ∈ lines, startsWith (rustTrim l) ("m=audio".toList) = false ∧
        supportedRtpmapWithPt (rustTrim l) mpt = false) :
    (lines.foldl parse_line st).media_pt = some mpt ∧
    (lines.foldl parse_line st).res.codec = st.res.codec ∧
    (lines.foldl parse_line st).res.payload_type = st.res.payload_type ∧
    (lines.foldl parse_line st).res.clock_rate = st.res.clock_rate := by
  induction lines generalizing st with
  | nil => exact ⟨hmp, rfl, rfl, rfl⟩
  | cons l rest ih =>
    obtain ⟨hna, hns⟩ := h l (List.mem_cons_self l rest)
    obtain ⟨p1, p2, p3, p4⟩ := parse_line_preserve st l mpt hmp hna hns
    rw [List.foldl_cons]
    obtain ⟨q1, q2, q3, q4⟩ := ih (parse_line st l) p1
      (fun x hx => h x (List.mem_cons_of_mem l hx))
    exact ⟨q1, by rw [q2, p2], by rw [q3, p3], by rw [q4, p4]⟩

theorem parse_ptime_line_cases (st : ParseState) (line : Str) :
    (parse_ptime_line st line).res.ptime_ms = st.res.ptime_ms ∨
    ∃ v, ptimeOverrideValue line = some v ∧ 0 < v ∧ v ≤ 200 ∧
      (parse_ptime_line st line).res.ptime_ms = v := by
  simp only [parse_ptime_line, ptimeOverrideValue]
  split
  case isTrue hpl =>
    split
    case h_1 v hv =>
      split_ifs with hrange
      · exact Or.inr ⟨v, by rw [hv], hrange.1, hrange.2, rfl⟩
      · exact Or.inl rfl
    case h_2 => exact Or.inl rfl
  case isFalse => exact Or.inl rfl

theorem parse_line_ptime_cases (st : ParseState) (raw : Str) :
    (parse_line st raw).res.ptime_ms = st.res.ptime_ms ∨
    ∃ v, ptimeOverrideValue (rustTrim raw) = some v ∧ 0 < v ∧ v ≤ 200 ∧
      (parse_line st raw).res.ptime_ms = v := by
  have hmres : (parse_media_line st (rustTrim raw)).res = st.res := by
    simp only [parse_media_line]
    split_ifs <;> rfl
  simp only [parse_line]
  split
  case isTrue => exact Or.inl (by rw [hmres])
  case isFalse =>
    have hrt : (parse_rtpmap_line (parse_media_line st (rustTrim raw))
        (rustTrim raw)).res.ptime_ms = st.res.ptime_ms := by
      rw [(parse_rtpmap_line_ptime _ _).1, hmres]
    rcases parse_ptime_line_cases
        (parse_rtpmap_line (parse_media_line st (rustTrim raw)) (rustTrim raw))
        (rustTrim raw) with hsame | ⟨v, hov, h0, h2, hval⟩
    · exact Or.inl (by rw [hsame, hrt])
    · exact Or.inr ⟨v, hov, h0, h2, hval⟩

theorem foldl_parse_line_ptime (lines : List Str) (st : ParseState) :
    (lines.foldl parse_line st).res.ptime_ms = st.res.ptime_ms ∨
    ∃ l ∈ lines, ∃ v, ptimeOverrideValue (rustTrim l) = some v ∧ 0 < v ∧ v ≤ 200 ∧
      (lines.foldl parse_line st).res.ptime_ms = v := by
  induction lines generalizing st with
  | nil => exact Or.inl rfl
  | cons l rest ih =>
    rw [List.foldl_cons]
    rcases ih (parse_line st l) with hsame | ⟨l', hl', v, hov, h0, h2, hval⟩
    · rcases parse_line_ptime_cases st l with hstep | ⟨v, hov, h0, h2, hval⟩
      · exact Or.inl (by rw [hsame, hstep])
      · exact Or.inr ⟨l, List.mem_cons_self l rest, v, hov, h0, h2, by rw [hsame, hval]⟩
    · exact Or.inr ⟨l', List.mem_cons_of_mem l hl', v, hov, h0, h2, hval⟩

theorem parse_finalize_ptime (st : ParseState) :
    (parse_finalize st).ptime_ms = st.res.ptime_ms := by
  simp only [parse_finalize]
  split
  · split_ifs
    · split <;> rfl
    · rfl
  · rfl

/-- C10.  `parse_negotiated_codec` is total (it is a function) and
defaults: (1) an SDP without an `m=audio` line parses to the default
negotiation (PCMU, payload type 0, 8000 Hz, 20 ms); (2) when the single
`m=audio` line announces a payload type with no static mapping and no
supported rtpmap entry in the audio section carries that payload type, the
codec fields stay at the default PCMU / 0 / 8000 Hz; (3) the 20 ms ptime
default is overridden only by an `a=ptime:` line whose value `v` parses and
satisfies `0 < v ≤ 200` — otherwise the result's ptime is 20. -/
theorem parse_negotiated_codec_total_defaults :
    (∀ sdp : Str, (∀ l ∈ rustLines sdp,
        startsWith (rustTrim l) ("m=audio".toList) = false) →
      parse_negotiated_codec sdp = NegotiatedCodec.default) ∧
    (∀ (sdp : Str) (A : List Str) (maud : Str) (B : List Str) (mpt : Nat),
        rustLines sdp = A ++ maud :: B →
        (∀ l ∈ A, startsWith (rustTrim l) ("m=audio".toList) = false) →
        (∀ l ∈ B, startsWith (rustTrim l) ("m=audio".toList) = false) →
        audioMediaPt (rustTrim maud) = some mpt →
        from_payload_type mpt = none →
        (∀ l ∈ B, supportedRtpmapWithPt (rustTrim l) mpt = false) →
        (parse_negotiated_codec sdp).codec = CodecType.PCMU ∧
        (parse_negotiated_codec sdp).payload_type = 0 ∧
        (parse_negotiated_codec sdp).clock_rate = 8000) ∧
    (∀ sdp : Str, (parse_negotiated_codec sdp).ptime_ms = 20 ∨
      ∃ l ∈ rustLines sdp, ∃ v, ptimeOverrideValue (rustTrim l) = some v ∧
        0 < v ∧ v ≤ 200 ∧ (parse_negotiated_codec sdp).ptime_ms = v) := by
  refine ⟨?_, ?_, ?_⟩
  · intro sdp h
    unfold parse_negotiated_codec
    rw [foldl_parse_line_no_audio (rustLines sdp) _ rfl h]
    rfl
  · intro sdp A maud B mpt hdec hA hB hmaud hfpt hBr
    unfold parse_negotiated_codec
    rw [hdec, List.foldl_append, List.foldl_cons]
    rw [foldl_parse_line_no_audio A _ rfl hA]
    rw [parse_line_audio _ maud mpt hmaud]
    obtain ⟨q1, q2, q3, q4⟩ := foldl_parse_line_preserve B
      { res := NegotiatedCodec.default, in_audio := true, media_pt := some mpt }
      mpt rfl (fun l hl => ⟨hB l hl, hBr l hl⟩)
    have hmne : mpt ≠ 0 := by
      intro h0
      rw [h0] at hfpt
      simp [from_payload_type] at hfpt
    simp only [parse_finalize, q1]
    have hne : (B.foldl parse_line
        { res := NegotiatedCodec.default, in_audio := true,
          media_pt := some mpt }).res.payload_type ≠ mpt := by
      rw [q3]
      simpa [NegotiatedCodec.default] using fun h => hmne h.symm
    rw [if_pos hne, hfpt]
    rw [q2, q3, q4]
    exact ⟨rfl, rfl, rfl⟩
  · intro sdp
    unfold parse_negotiated_codec
    rw [parse_finalize_ptime]
    exact foldl_parse_line_ptime (rustLines sdp) _

/-- Witness for C10: an SDP without audio parses to the default; an SDP
announcing the unknown payload type 96 with only an unsupported rtpmap
entry keeps the PCMU / 0 / 8000 defaults while its valid `a=ptime:30`
overrides the ptime. -/
theorem parse_negotiated_codec_total_defaults_witness :
    parse_negotiated_codec ("v=0\r\ns=-\r\n".toList) = NegotiatedCodec.default ∧
    ((parse_negotiated_codec
        ("m=audio 5004 RTP/AVP 96\r\na=rtpmap:96 AMR/8000\r\na=ptime:30\r\n".toList)).codec
          = CodecType.PCMU ∧
      (parse_negotiated_codec
        ("m=audio 5004 RTP/AVP 96\r\na=rtpmap:96 AMR/8000\r\na=ptime:30\r\n".toList)).payload_type
          = 0 ∧
      (parse_negotiated_codec
        ("m=audio 5004 RTP/AVP 96\r\na=rtpmap:96 AMR/8000\r\na=ptime:30\r\n".toList)).clock_rate
          = 8000) :=
  ⟨parse_negotiated_codec_total_defaults.1 ("v=0\r\ns=-\r\n".toList) (by decide),
   parse_negotiated_codec_total_defaults.2.1
     ("m=audio 5004 RTP/AVP 96\r\na=rtpmap:96 AMR/8000\r\na=ptime:30\r\n".toList)
     [] ("m=audio 5004 RTP/AVP 96".toList)
     [("a=rtpmap:96 AMR/8000".toList), ("a=ptime:30".toList)] 96
     (by decide) (by decide) (by decide) (by decide) (by decide) (by decide)⟩

end Softphone
